import Mathlib

/-!
Shallow embedding of the offline synchronization engine of the repository
(`src/services/speechToTextService.ts`, class `OfflineSyncService`), together
with proofs about the queue data model, the priority scheduler, retry/backoff
handling, dead-letter promotion and the per-owner concurrency discipline.

Conventions used throughout:
* JavaScript exceptions are modelled with `Except String`;
* JavaScript string truthiness (`s || t`) is modelled by `truthy`/`jsOr`
  (the empty string is falsy);
* timestamps (`Date.now()`) are `Nat` milliseconds;
* `Array.prototype.sort` with a consistent comparator is (per ECMA-262) a
  stable sort with respect to that comparator; it is modelled by the stable
  structural `List.insertionSort`.
-/

namespace MoodSync

/-- The `type` field of a `SyncQueueItem`: `'CREATE' | 'UPDATE' | 'DELETE'`. -/
inductive OperationKind
  | CREATE
  | UPDATE
  | DELETE
deriving DecidableEq

/-- The `entity` field of a `SyncQueueItem` (closed union in the source). -/
inductive Entity
  | achievement
  | mood_entry
  | ai_profile
  | treatment_plan
  | voice_checkin
  | user_profile
deriving DecidableEq

/-- The `priority` field values: `'low' | 'normal' | 'high' | 'critical'`. -/
inductive Priority
  | low
  | normal
  | high
  | critical
deriving DecidableEq

/-- The untyped `data` payload of a queue item, restricted to the fields the
sync engine itself reads (`user_id`/`userId`, `id`, and the mood-entry fields
normalised by `syncMoodEntry`). Absent fields are `none`. -/
structure Payload where
  user_id : Option String := none
  userId : Option String := none
  id : Option String := none
  mood_score : Option Int := none
  mood : Option Int := none
  energy_level : Option Int := none
  energy : Option Int := none
  anxiety_level : Option Int := none
  anxiety : Option Int := none
  notes : Option String := none
  triggers : Option (List String) := none
  trigger : Option String := none
  activities : Option (List String) := none
deriving DecidableEq

/-- `SyncQueueItem` (source lines 604-616). -/
structure SyncQueueItem where
  id : String
  type : OperationKind
  entity : Entity
  data : Payload
  timestamp : Nat
  retryCount : Nat
  deviceId : Option String := none
  lastModified : Option Nat := none
  priority : Option Priority := none
  isBulkOperation : Option Bool := none
  batchId : Option String := none
deriving DecidableEq

/-- JavaScript truthiness of an optional string: `undefined`/`null` and the
empty string are falsy; any other string is truthy. -/
def truthy : Option String → Option String
  | none => none
  | some s => if s = "" then none else some s

/-- `it?.data?.user_id || it?.data?.userId || null` (the `deriveUserId` local
function of `processSyncQueue`, source lines 876-880). -/
def deriveUserId (it : SyncQueueItem) : Option String :=
  match truthy it.data.user_id with
  | some u => some u
  | none => truthy it.data.userId

/-- `determinePriority` (source lines 702-712): the priority stored for an item
is derived from its entity kind. The `default` arm of the source `switch` is
unreachable here because `Entity` is a closed enumeration. -/
def determinePriority : Entity → Priority
  | .mood_entry => .high
  | .user_profile => .high
  | .voice_checkin => .normal
  | .ai_profile => .normal
  | .treatment_plan => .normal
  | .achievement => .low

/-- `getPriorityWeight` (source lines 714-722); an absent priority defaults to
the weight of `normal`. -/
def getPriorityWeight : Option Priority → Nat
  | some .critical => 4
  | some .high => 3
  | some .normal => 2
  | some .low => 1
  | none => 2

/-- The comparator passed to `Array.prototype.sort` in `sortQueueByPriority`
(source lines 725-730): descending priority weight, then ascending timestamp. -/
def sortCompare (a b : SyncQueueItem) : Int :=
  if (getPriorityWeight b.priority : Int) - (getPriorityWeight a.priority : Int) ≠ 0 then
    (getPriorityWeight b.priority : Int) - (getPriorityWeight a.priority : Int)
  else
    (a.timestamp : Int) - (b.timestamp : Int)

/-- `a` may come before `b` under the `sortQueueByPriority` comparator. -/
def sortRel (a b : SyncQueueItem) : Prop := sortCompare a b ≤ 0

instance : DecidableRel sortRel := fun a b =>
  inferInstanceAs (Decidable (sortCompare a b ≤ 0))

/-- `sortQueueByPriority` (source lines 724-731), modelled as the stable
`insertionSort` by the source comparator. -/
def sortQueueByPriority (items : List SyncQueueItem) : List SyncQueueItem :=
  items.insertionSort sortRel

/-- The ordering the specification describes: primary key descending priority
weight, secondary key ascending enqueue timestamp. -/
def specOrder (a b : SyncQueueItem) : Prop :=
  getPriorityWeight b.priority < getPriorityWeight a.priority ∨
    (getPriorityWeight a.priority = getPriorityWeight b.priority ∧ a.timestamp ≤ b.timestamp)

theorem sortRel_iff (a b : SyncQueueItem) : sortRel a b ↔ specOrder a b := by
  unfold sortRel sortCompare specOrder
  split_ifs with h
  · constructor
    · intro hle
      omega
    · intro hsp
      omega
  · constructor
    · intro hle
      omega
    · intro hsp
      omega

instance : IsTotal SyncQueueItem sortRel :=
  ⟨by
    intro a b
    rw [sortRel_iff, sortRel_iff]
    unfold specOrder
    omega⟩

instance : IsTrans SyncQueueItem sortRel :=
  ⟨by
    intro a b c hab hbc
    rw [sortRel_iff] at hab hbc ⊢
    unfold specOrder at hab hbc ⊢
    omega⟩

theorem sortQueueByPriority_perm (items : List SyncQueueItem) :
    (sortQueueByPriority items).Perm items :=
  List.perm_insertionSort sortRel items

theorem sortQueueByPriority_pairwise (items : List SyncQueueItem) :
    (sortQueueByPriority items).Pairwise specOrder := by
  have h := List.sorted_insertionSort sortRel items
  exact List.Pairwise.imp (fun hab => (sortRel_iff _ _).mp hab) h

/-- A payload carrying only an owner id, used by the concrete scenarios. -/
def examplePayload : Payload := { user_id := some "user-1" }

/-- A same-owner item with a chosen id, enqueue timestamp and priority. -/
def exampleItem (id : String) (ts : Nat) (p : Priority) : SyncQueueItem :=
  { id := id, type := .CREATE, entity := .mood_entry, data := examplePayload,
    timestamp := ts, retryCount := 0, priority := some p }

def exLow : SyncQueueItem := exampleItem "q1" 1 .low

def exHigh1 : SyncQueueItem := exampleItem "q2" 2 .high

def exNormal : SyncQueueItem := exampleItem "q3" 3 .normal

def exCritical : SyncQueueItem := exampleItem "q4" 4 .critical

def exHigh2 : SyncQueueItem := exampleItem "q5" 5 .high

/-- C1: `sortQueueByPriority` orders every list of pending items primarily by
descending priority weight (`critical` > `high` > `normal` > `low`) and, inside
a priority band, by ascending enqueue timestamp (the output is a permutation of
the input that is pairwise ordered this way); in particular five same-owner
items enqueued with priorities `low, high, normal, critical, high` at times
1..5 come out as `critical, high, high, normal, low`, the two `high` items in
enqueue order. -/
theorem claim1_sort_order :
    (∀ items : List SyncQueueItem,
        (sortQueueByPriority items).Perm items ∧
          (sortQueueByPriority items).Pairwise specOrder) ∧
    sortQueueByPriority [exLow, exHigh1, exNormal, exCritical, exHigh2] =
      [exCritical, exHigh1, exHigh2, exNormal, exLow] := by
  refine ⟨fun items => ⟨sortQueueByPriority_perm items, sortQueueByPriority_pairwise items⟩, ?_⟩
  decide

/-- The argument of `addToSyncQueue`:
`Omit<SyncQueueItem, 'id' | 'timestamp' | 'retryCount'>` (source line 765). -/
structure NewSyncItem where
  type : OperationKind
  entity : Entity
  data : Payload
  deviceId : Option String := none
  lastModified : Option Nat := none
  priority : Option Priority := none
  isBulkOperation : Option Bool := none
  batchId : Option String := none

/-- Modelled from the spec: `queueValidator.validateItem`
(`@/services/sync/queueValidator`, whose source is not under `src/`). The spec
says the validator rejects a structurally invalid item — "missing owner,
malformed payload, unknown entityKind". In this typed embedding the entity kind
is a closed enumeration and the payload is well-shaped by construction, so the
representable invalid case is a missing owner id in the payload. -/
def validateItem (it : SyncQueueItem) : Bool :=
  (deriveUserId it).isSome

/-- Modelled from the spec: `queueValidator.sanitizeItem`
(`@/services/sync/queueValidator`, whose source is not under `src/`): the spec
says the sanitizer "repairs malformed items"; on the well-typed items of this
embedding there is nothing to repair, so it is the identity. -/
def sanitizeItem (it : SyncQueueItem) : SyncQueueItem := it

/-- The temporary item `addToSyncQueue` builds for validation
(source lines 770-775). -/
def tempItemOf (input : NewSyncItem) (now : Nat) : SyncQueueItem :=
  { id := "temp_" ++ toString now
    type := input.type
    entity := input.entity
    data := input.data
    timestamp := now
    retryCount := 0
    deviceId := input.deviceId
    lastModified := input.lastModified
    priority := input.priority
    isBulkOperation := input.isBulkOperation
    batchId := input.batchId }

/-- The item actually stored by `addToSyncQueue` (source lines 815-828):
a fresh crypto-random id, `retryCount` 0, and a priority derived from the
entity kind by `determinePriority`, overriding any caller-supplied priority. -/
def enqueuedItemOf (input : NewSyncItem) (newId : String) (now : Nat)
    (deviceId : Option String) : SyncQueueItem :=
  { id := newId
    type := (sanitizeItem (tempItemOf input now)).type
    entity := (sanitizeItem (tempItemOf input now)).entity
    data := (sanitizeItem (tempItemOf input now)).data
    timestamp := now
    retryCount := 0
    deviceId := some ((truthy deviceId).getD "unknown_device")
    lastModified := some now
    priority := some (determinePriority (sanitizeItem (tempItemOf input now)).entity)
    isBulkOperation := some (input.isBulkOperation.getD false)
    batchId := input.batchId }

/-- `addToSyncQueue` (source lines 765-849): validate, drop invalid items
without touching the queue, otherwise append exactly one sanitized item.
`newId` stands for `generateSecureId()`, `now` for `Date.now()`, `deviceId`
for the stored `device_id`. -/
def addToSyncQueue (q : List SyncQueueItem) (input : NewSyncItem) (newId : String)
    (now : Nat) (deviceId : Option String) : List SyncQueueItem :=
  if validateItem (tempItemOf input now) then
    q ++ [enqueuedItemOf input newId now deviceId]
  else
    q

/-- C6: enqueue validates first; an item the validator rejects leaves the sync
queue exactly unchanged (and, not being stored, is never retried), while an
item the validator accepts appends exactly one new entry with `retryCount` 0. -/
theorem claim6_enqueue_validation (q : List SyncQueueItem) (input : NewSyncItem)
    (newId : String) (now : Nat) (deviceId : Option String) :
    (validateItem (tempItemOf input now) = false →
        addToSyncQueue q input newId now deviceId = q) ∧
    (validateItem (tempItemOf input now) = true →
        addToSyncQueue q input newId now deviceId =
            q ++ [enqueuedItemOf input newId now deviceId] ∧
          (enqueuedItemOf input newId now deviceId).retryCount = 0 ∧
          (addToSyncQueue q input newId now deviceId).length = q.length + 1) := by
  constructor
  · intro h
    simp [addToSyncQueue, h]
  · intro h
    simp [addToSyncQueue, h, enqueuedItemOf]

/-- An input whose payload has no owner id (rejected by the validator). -/
def invalidInput : NewSyncItem :=
  { type := .CREATE, entity := .mood_entry, data := {} }

/-- An input whose payload carries an owner id (accepted by the validator). -/
def validInput : NewSyncItem :=
  { type := .CREATE, entity := .mood_entry, data := examplePayload }

theorem claim6_enqueue_validation_witness :
    addToSyncQueue [] invalidInput "id-1" 10 none = [] ∧
    addToSyncQueue [] validInput "id-1" 10 none =
        [enqueuedItemOf validInput "id-1" 10 none] ∧
    (enqueuedItemOf validInput "id-1" 10 none).retryCount = 0 := by
  refine ⟨(claim6_enqueue_validation [] invalidInput "id-1" 10 none).1 (by decide), ?_, ?_⟩
  · have h := ((claim6_enqueue_validation [] validInput "id-1" 10 none).2 (by decide)).1
    simpa using h
  · exact ((claim6_enqueue_validation [] validInput "id-1" 10 none).2 (by decide)).2.1

/-- C8: the priority stored at enqueue time is derived from the entity kind by
the fixed mapping of `determinePriority` (`mood_entry`/`user_profile` high,
`voice_checkin`/`ai_profile`/`treatment_plan` normal, `achievement` low), and
this derived priority overrides whatever priority the caller supplied: the
stored queue is independent of the input's `priority` field. -/
theorem claim8_priority_derivation (q : List SyncQueueItem) (input : NewSyncItem)
    (newId : String) (now : Nat) (deviceId : Option String) :
    (determinePriority .mood_entry = .high ∧
      determinePriority .user_profile = .high ∧
      determinePriority .voice_checkin = .normal ∧
      determinePriority .ai_profile = .normal ∧
      determinePriority .treatment_plan = .normal ∧
      determinePriority .achievement = .low) ∧
    (enqueuedItemOf input newId now deviceId).priority =
      some (determinePriority input.entity) ∧
    (∀ p : Option Priority,
        addToSyncQueue q { input with priority := p } newId now deviceId =
          addToSyncQueue q input newId now deviceId) := by
  refine ⟨by decide, rfl, ?_⟩
  intro p
  simp [addToSyncQueue, validateItem, deriveUserId, tempItemOf, enqueuedItemOf, sanitizeItem]

/-- `const base = 2000` (source line 924). -/
def backoffBase : Nat := 2000

/-- The literal cap `60000` in the delay computation (source line 925). -/
def backoffCap : Nat := 60000

/-- The delay computed after a failed attempt (source line 925):
`Math.min(base * Math.pow(2, attempt), 60000) + Math.floor(Math.random() * 500)`.
`attempt` is the just-incremented `retryCount`; `jitter` stands for the value
of `Math.floor(Math.random() * 500)`, an integer in `[0, 500)`. -/
def backoffDelay (attempt jitter : Nat) : Nat :=
  min (backoffBase * 2 ^ attempt) backoffCap + jitter

/-- C4 as stated is false: the delay is `min(base·2^N, cap) + jitter`, so once
the deterministic part reaches the cap the total delay exceeds the configured
cap by the jitter, and a large jitter followed by a small one makes consecutive
delays decrease. Concretely: before the 5th retry with jitter 499 the delay is
60499 > 60000, and before the 6th retry with jitter 0 it drops to 60000. -/
theorem claim4_counterexample :
    499 < 500 ∧ 0 < 500 ∧
    backoffCap < backoffDelay 5 499 ∧
    backoffDelay 6 0 < backoffDelay 5 499 := by
  refine ⟨by decide, by decide, ?_, ?_⟩ <;> decide

/-- C4 amended: the computed delay equals `min(2000·2^N, 60000) + jitter` with
jitter in `[0, 500)`; its jitter-free component is non-decreasing in `N` and
bounded by the cap, and the total delay is bounded by the cap plus the maximal
jitter (strictly below `cap + 500`). -/
theorem claim4_backoff_amended (n jitter : Nat) (hj : jitter < 500) :
    backoffDelay n jitter = min (backoffBase * 2 ^ n) backoffCap + jitter ∧
    min (backoffBase * 2 ^ n) backoffCap ≤ min (backoffBase * 2 ^ (n + 1)) backoffCap ∧
    min (backoffBase * 2 ^ n) backoffCap ≤ backoffCap ∧
    backoffDelay n jitter < backoffCap + 500 := by
  refine ⟨rfl, ?_, Nat.min_le_right _ _, ?_⟩
  · have hpow : backoffBase * 2 ^ n ≤ backoffBase * 2 ^ (n + 1) := by
      have : (2 : Nat) ^ n ≤ 2 ^ (n + 1) := Nat.pow_le_pow_right (by decide) (Nat.le_succ n)
      exact Nat.mul_le_mul_left _ this
    exact min_le_min hpow (Nat.le_refl _)
  · have hmin : min (backoffBase * 2 ^ n) backoffCap ≤ backoffCap := Nat.min_le_right _ _
    unfold backoffDelay
    omega

theorem claim4_backoff_amended_witness :
    backoffDelay 3 100 = min (backoffBase * 2 ^ 3) backoffCap + 100 ∧
    min (backoffBase * 2 ^ 3) backoffCap ≤ min (backoffBase * 2 ^ 4) backoffCap ∧
    min (backoffBase * 2 ^ 3) backoffCap ≤ backoffCap ∧
    backoffDelay 3 100 < backoffCap + 500 :=
  claim4_backoff_amended 3 100 (by decide)

/-- The object handed to `deadLetterQueue.addToDeadLetter` by `handleFailedSync`
(source lines 1179-1185): the failed item's id, operation, entity and payload
plus the fixed error message. -/
structure DeadLetterEntry where
  id : String
  type : OperationKind
  entity : Entity
  data : Payload
  errorMessage : String
deriving DecidableEq

/-- The dead-letter record built from a failed item (source lines 1180-1185). -/
def dlEntryOf (item : SyncQueueItem) : DeadLetterEntry :=
  { id := item.id, type := item.type, entity := item.entity, data := item.data,
    errorMessage := "Max retries exceeded" }

/-- `handleFailedSync` (source lines 1176-1195). Modelled from the spec for the
missing `deadLetterQueue` module (`@/services/sync/deadLetterQueue` is not under
`src/`): archiving appends the entry to the dead-letter store ("never silently
dropped"). -/
def handleFailedSync (dlq : List DeadLetterEntry) (item : SyncQueueItem) :
    List DeadLetterEntry :=
  dlq ++ [dlEntryOf item]

/-- The live sync queue together with the dead-letter store. -/
structure QueueState where
  syncQueue : List SyncQueueItem
  dlq : List DeadLetterEntry
deriving DecidableEq

/-- The success branch of the worker body (source line 909): remove the synced
item from the queue. -/
def succeedStep (st : QueueState) (id : String) : QueueState :=
  { st with syncQueue := st.syncQueue.filter (fun q => !(q.id == id)) }

/-- `{ it with retryCount := k }`. -/
def setRC (it : SyncQueueItem) (k : Nat) : SyncQueueItem :=
  { it with retryCount := k }

/-- The catch branch of the worker body (source lines 918-931): find the item
in the live queue, increment its `retryCount` in place, and once the new count
reaches the ceiling 8 remove it from the live queue and hand it to
`handleFailedSync`. -/
def failStep (st : QueueState) (id : String) : QueueState :=
  match st.syncQueue.find? (fun q => q.id == id) with
  | none => st
  | some qi =>
    let qi' := setRC qi (qi.retryCount + 1)
    let queue1 := st.syncQueue.map (fun q => if q.id == id then qi' else q)
    if 8 ≤ qi'.retryCount then
      { syncQueue := queue1.filter (fun q => !(q.id == id)),
        dlq := handleFailedSync st.dlq qi' }
    else
      { st with syncQueue := queue1 }

/-- One processing step of an item: the adapter call either succeeds or throws. -/
def processStep (st : QueueState) (id : String) (ok : Bool) : QueueState :=
  if ok then succeedStep st id else failStep st id

/-- `n` consecutive failed attempts of the item with the given id. -/
def failN (id : String) : Nat → QueueState → QueueState
  | 0, st => st
  | n + 1, st => failStep (failN id n st) id

@[simp] theorem setRC_id (it : SyncQueueItem) (k : Nat) : (setRC it k).id = it.id := rfl

@[simp] theorem setRC_retryCount (it : SyncQueueItem) (k : Nat) :
    (setRC it k).retryCount = k := rfl

theorem failStep_singleton (it : SyncQueueItem) (d : List DeadLetterEntry) :
    failStep ⟨[it], d⟩ it.id =
      if 8 ≤ it.retryCount + 1 then
        ⟨[], handleFailedSync d (setRC it (it.retryCount + 1))⟩
      else
        ⟨[setRC it (it.retryCount + 1)], d⟩ := by
  have hfind : List.find? (fun q => q.id == it.id) [it] = some it :=
    List.find?_cons_of_pos _ (by simp)
  simp only [failStep, hfind, setRC_retryCount, List.map_cons, List.map_nil,
    beq_self_eq_true, if_true]
  split
  · simp
  · rfl

theorem failN_singleton (it : SyncQueueItem) (d : List DeadLetterEntry)
    (h0 : it.retryCount = 0) :
    ∀ k, k ≤ 7 → failN it.id k ⟨[it], d⟩ = ⟨[setRC it k], d⟩ := by
  have hrc0 : setRC it 0 = it := by
    have h : setRC it it.retryCount = it := rfl
    rw [h0] at h
    exact h
  intro k
  induction k with
  | zero =>
    intro _
    simp [failN, hrc0]
  | succ n ih =>
    intro hk
    have hn : n ≤ 7 := Nat.le_of_succ_le hk
    have hid : (setRC it n).id = it.id := rfl
    have hstep := failStep_singleton (setRC it n) d
    rw [hid, setRC_retryCount] at hstep
    have hlt : ¬ (8 ≤ n + 1) := by omega
    rw [if_neg hlt] at hstep
    calc failN it.id (n + 1) ⟨[it], d⟩
        = failStep ⟨[setRC it n], d⟩ it.id := by rw [failN, ih hn]
      _ = ⟨[setRC it (n + 1)], d⟩ := hstep

/-- Helper: members of a list whose mapped ids are `Nodup` are determined by
their id. -/
theorem eq_of_mem_of_id_eq {l : List SyncQueueItem}
    (hnd : (l.map SyncQueueItem.id).Nodup) {x y : SyncQueueItem}
    (hx : x ∈ l) (hy : y ∈ l) (hid : x.id = y.id) : x = y :=
  List.inj_on_of_nodup_map hnd hx hy hid

/-- On a queue with distinct ids, a processing step never decreases the
`retryCount` of an item that survives it. -/
theorem processStep_retry_monotone (st : QueueState) (id : String) (ok : Bool)
    (x x' : SyncQueueItem) (hnd : (st.syncQueue.map SyncQueueItem.id).Nodup)
    (hx : x ∈ st.syncQueue) (hx' : x' ∈ (processStep st id ok).syncQueue)
    (hid : x'.id = x.id) : x.retryCount ≤ x'.retryCount := by
  unfold processStep at hx'
  split at hx'
  · unfold succeedStep at hx'
    simp only [List.mem_filter] at hx'
    have hxx := eq_of_mem_of_id_eq hnd hx'.1 hx hid
    rw [← hxx]
  · cases hfind : st.syncQueue.find? (fun q => q.id == id) with
    | none =>
      unfold failStep at hx'
      rw [hfind] at hx'
      have hxx := eq_of_mem_of_id_eq hnd hx' hx hid
      rw [← hxx]
    | some qi =>
      have hqimem : qi ∈ st.syncQueue := List.mem_of_find?_eq_some hfind
      have hx'' : x' ∈ st.syncQueue.map
          (fun q => if q.id == id then setRC qi (qi.retryCount + 1) else q) := by
        unfold failStep at hx'
        rw [hfind] at hx'
        simp only at hx'
        split at hx'
        · exact (List.mem_filter.mp hx').1
        · exact hx'
      obtain ⟨y, hy, hyx'⟩ := List.mem_map.mp hx''
      by_cases hyid : y.id == id
      · rw [if_pos hyid] at hyx'
        have hxid : x.id = qi.id := by rw [← hid, ← hyx', setRC_id]
        have hxqi : x = qi := eq_of_mem_of_id_eq hnd hx hqimem hxid
        rw [hxqi, ← hyx', setRC_retryCount]
        exact Nat.le_succ _
      · rw [if_neg hyid] at hyx'
        have hyx : y = x := eq_of_mem_of_id_eq hnd hy hx (by rw [hyx', hid])
        rw [← hyx', hyx]

/-- C2: across processing steps a surviving item's `retryCount` never decreases
(on queues with distinct ids); an item that starts at `retryCount` 0 and whose
adapter call fails `k ≤ 7` times is still live with `retryCount = k`; after the
8th consecutive failure it is removed from the live queue and appended to the
dead-letter store (handed over at `retryCount` 8, never silently dropped);
and an item that fails `k ≤ 7` times and then succeeds is absent from both the
live queue and the dead-letter store. -/
theorem claim2_retry_ceiling (item : SyncQueueItem) (d0 : List DeadLetterEntry)
    (h0 : item.retryCount = 0) (k : Nat) (hk : k ≤ 7) :
    (∀ (st : QueueState) (id : String) (ok : Bool) (x x' : SyncQueueItem),
        (st.syncQueue.map SyncQueueItem.id).Nodup →
        x ∈ st.syncQueue → x' ∈ (processStep st id ok).syncQueue →
        x'.id = x.id → x.retryCount ≤ x'.retryCount) ∧
    failN item.id k ⟨[item], d0⟩ = ⟨[setRC item k], d0⟩ ∧
    failN item.id 8 ⟨[item], d0⟩ = ⟨[], d0 ++ [dlEntryOf (setRC item 8)]⟩ ∧
    succeedStep (failN item.id k ⟨[item], d0⟩) item.id = ⟨[], d0⟩ := by
  refine ⟨processStep_retry_monotone, failN_singleton item d0 h0 k hk, ?_, ?_⟩
  · have h7 := failN_singleton item d0 h0 7 (by omega)
    have hid7 : (setRC item 7).id = item.id := rfl
    have hstep := failStep_singleton (setRC item 7) d0
    rw [hid7, setRC_retryCount] at hstep
    rw [if_pos (by omega)] at hstep
    calc failN item.id 8 ⟨[item], d0⟩
        = failStep ⟨[setRC item 7], d0⟩ item.id := by rw [failN, h7]
      _ = ⟨[], d0 ++ [dlEntryOf (setRC item 8)]⟩ := by
          rw [hstep]
          rfl
  · rw [failN_singleton item d0 h0 k hk]
    simp [succeedStep]

/-- A concrete fresh queue item used by the concrete scenarios. -/
def freshItem : SyncQueueItem :=
  { id := "item-1", type := .CREATE, entity := .mood_entry, data := examplePayload,
    timestamp := 100, retryCount := 0, priority := some .high }

theorem claim2_retry_ceiling_witness :
    failN freshItem.id 3 ⟨[freshItem], []⟩ = ⟨[setRC freshItem 3], []⟩ ∧
    failN freshItem.id 8 ⟨[freshItem], []⟩ = ⟨[], [dlEntryOf (setRC freshItem 8)]⟩ ∧
    succeedStep (failN freshItem.id 3 ⟨[freshItem], []⟩) freshItem.id = ⟨[], []⟩ := by
  have h := claim2_retry_ceiling freshItem [] (by decide) 3 (by decide)
  exact ⟨h.2.1, by simpa using h.2.2.1, h.2.2.2⟩

/-- Eligibility test applied to each item by the `pickCandidate` loop of
`processSyncQueue` (source lines 882-891): skip items already consumed this
pass, and skip items whose derived owner id is currently in flight.
`Set.has` is modelled as decidable list membership. -/
def eligibleB (c : SyncQueueItem) (consumed inflight : List String) : Bool :=
  !(decide (c.id ∈ consumed)) &&
    !(match deriveUserId c with
      | some u => decide (u ∈ inflight)
      | none => false)

/-- `pickCandidate` (source lines 882-891): scan `itemsToSync` in order and
return the first eligible item, or nothing when none is eligible. -/
def pickCandidate (items : List SyncQueueItem) (consumed inflight : List String) :
    Option SyncQueueItem :=
  items.find? (fun c => eligibleB c consumed inflight)

theorem eligibleB_false_of_consumed (c : SyncQueueItem) (consumed inflight : List String)
    (h : c.id ∈ consumed) : eligibleB c consumed inflight = false := by
  simp [eligibleB, h]

theorem eligibleB_true_of_fresh (c : SyncQueueItem) (consumed : List String)
    (h : c.id ∉ consumed) : eligibleB c consumed [] = true := by
  simp [eligibleB, h]
  cases deriveUserId c <;> simp

theorem pickCandidate_skip (done rest : List SyncQueueItem) (consumed inflight : List String)
    (hdone : ∀ c ∈ done, c.id ∈ consumed) :
    pickCandidate (done ++ rest) consumed inflight = pickCandidate rest consumed inflight := by
  induction done with
  | nil => rfl
  | cons a l ih =>
    have ha : eligibleB a consumed inflight = false :=
      eligibleB_false_of_consumed a consumed inflight (hdone a (by simp))
    have ihh := ih (fun c hc => hdone c (by simp [hc]))
    simpa [pickCandidate, List.find?_cons_of_neg, ha] using ihh

/-- One sequential worker of `processSyncQueue` (the `runWorker` loop, source
lines 893-936), with the worker's own in-flight owner always released by the
`finally` block before its next pick, so each pick sees an empty in-flight set.
The adapter models `syncItem` behind `syncCircuitBreaker.execute`, the breaker
being a pass-through in its `CLOSED` state; `Except.error` models a thrown
exception, consumed by the catch branch. `tr` accumulates the dispatch order.
This serializes the source's two workers, so it is used only for conclusions
that are invariant under their interleaving — per-item counters, the recorded
summary, and single-item passes (where the source spawns one worker) — never
for dispatch-order properties, which are stated against the interleaved
two-worker `Step` semantics below. -/
def runWorkerSeq (adapter : SyncQueueItem → Except String Unit) :
    Nat → List SyncQueueItem → List String → QueueState → Nat → Nat →
    List SyncQueueItem → QueueState × Nat × Nat × List SyncQueueItem
  | 0, _, _, st, s, f, tr => (st, s, f, tr)
  | fuel + 1, items, consumed, st, s, f, tr =>
    match pickCandidate items consumed [] with
    | none => (st, s, f, tr)
    | some c =>
      match adapter c with
      | .ok _ =>
          runWorkerSeq adapter fuel items (c.id :: consumed) (succeedStep st c.id)
            (s + 1) f (tr ++ [c])
      | .error _ =>
          runWorkerSeq adapter fuel items (c.id :: consumed) (failStep st c.id)
            s (if st.syncQueue.any (fun q => q.id == c.id) then f + 1 else f) (tr ++ [c])

/-- The `last_sync_summary` object persisted at the end of `processSyncQueue`
(source line 962), as a JSON-like field map (the string-valued `at` timestamp
field is omitted from this numeric map). -/
def lastSyncSummary (attempted succeeded failed : Nat) : List (String × Nat) :=
  [("attempted", attempted), ("succeeded", succeeded), ("failed", failed)]

/-- The observable outcome of one `processSyncQueue` pass. -/
structure PassResult where
  state : QueueState
  summary : List (String × Nat)
  dispatched : List SyncQueueItem
deriving DecidableEq

/-- `processSyncQueue` (source lines 851-985), sequential single-worker model:
sort a copy of the queue by priority, drain it with the worker loop, and
record the `{attempted, succeeded, failed}` summary. Like `runWorkerSeq` this
is used only for interleaving-invariant conclusions (counts, summary shape,
single-item passes), not for multi-owner dispatch order. -/
def processSyncQueue (adapter : SyncQueueItem → Except String Unit)
    (queue : List SyncQueueItem) (dlq : List DeadLetterEntry) : PassResult :=
  let items := sortQueueByPriority queue
  let r := runWorkerSeq adapter items.length items [] ⟨queue, dlq⟩ 0 0 []
  { state := r.1, summary := lastSyncSummary items.length r.2.1 r.2.2.1,
    dispatched := r.2.2.2 }

theorem mem_succeedStep_of_ne (st : QueueState) (id : String) (c : SyncQueueItem)
    (hc : c ∈ st.syncQueue) (hne : c.id ≠ id) : c ∈ (succeedStep st id).syncQueue := by
  simp [succeedStep, List.mem_filter, hc, hne]

theorem mem_failStep_of_ne (st : QueueState) (id : String) (c : SyncQueueItem)
    (hc : c ∈ st.syncQueue) (hne : c.id ≠ id) : c ∈ (failStep st id).syncQueue := by
  unfold failStep
  cases hfind : st.syncQueue.find? (fun q => q.id == id) with
  | none => exact hc
  | some qi =>
    have hmem : c ∈ st.syncQueue.map
        (fun q => if q.id == id then setRC qi (qi.retryCount + 1) else q) := by
      refine List.mem_map.mpr ⟨c, hc, ?_⟩
      simp [hne]
    simp only
    split
    · exact List.mem_filter.mpr ⟨hmem, by simp [hne]⟩
    · exact hmem

/-- Master lemma for the sequential worker: given a suffix `rest` of fresh,
id-distinct items all present in the live queue, the worker drains exactly
`rest` in order, and every drained item is counted either as a success or as a
failure. -/
theorem runWorkerSeq_spec (adapter : SyncQueueItem → Except String Unit) :
    ∀ rest : List SyncQueueItem, (rest.map SyncQueueItem.id).Nodup →
    ∀ (done : List SyncQueueItem) (consumed : List String) (st : QueueState)
      (s f : Nat) (tr : List SyncQueueItem) (fuel : Nat),
      rest.length ≤ fuel →
      (∀ c ∈ done, c.id ∈ consumed) →
      (∀ c ∈ rest, c.id ∉ consumed) →
      (∀ c ∈ rest, c ∈ st.syncQueue) →
      ∃ st' s' f',
        runWorkerSeq adapter fuel (done ++ rest) consumed st s f tr =
          (st', s', f', tr ++ rest) ∧ s' + f' = s + f + rest.length := by
  intro rest
  induction rest with
  | nil =>
    intro _ done consumed st s f tr fuel _ hdone _ _
    have hpick : pickCandidate done consumed [] = none := by
      simpa using pickCandidate_skip done [] consumed [] hdone
    refine ⟨st, s, f, ?_, by simp⟩
    simp only [List.append_nil]
    cases fuel with
    | zero => simp [runWorkerSeq]
    | succ n => simp [runWorkerSeq, hpick]
  | cons r rs ih =>
    intro hnd done consumed st s f tr fuel hfuel hdone hrest hsub
    cases fuel with
    | zero => simp at hfuel
    | succ n =>
      have hcons : (∀ x ∈ rs, ¬ x.id = r.id) ∧ (rs.map SyncQueueItem.id).Nodup := by
        simpa using hnd
      have hne : ∀ c ∈ rs, c.id ≠ r.id := hcons.1
      have hndrs : (rs.map SyncQueueItem.id).Nodup := hcons.2
      have hpick : pickCandidate (done ++ r :: rs) consumed [] = some r := by
        rw [pickCandidate_skip done (r :: rs) consumed [] hdone]
        have helig : eligibleB r consumed [] = true :=
          eligibleB_true_of_fresh r consumed (hrest r (by simp))
        simp [pickCandidate, List.find?_cons_of_pos, helig]
      have happ : done ++ r :: rs = (done ++ [r]) ++ rs := by simp
      have hdone' : ∀ c ∈ done ++ [r], c.id ∈ r.id :: consumed := by
        intro c hc
        rcases List.mem_append.mp hc with h | h
        · exact List.mem_cons_of_mem _ (hdone c h)
        · simp at h
          simp [h]
      have hrest' : ∀ c ∈ rs, c.id ∉ r.id :: consumed := by
        intro c hc
        simp only [List.mem_cons, not_or]
        exact ⟨hne c hc, hrest c (List.mem_cons_of_mem _ hc)⟩
      cases hares : adapter r with
      | ok v =>
        have hsub' : ∀ c ∈ rs, c ∈ (succeedStep st r.id).syncQueue := fun c hc =>
          mem_succeedStep_of_ne st r.id c (hsub c (List.mem_cons_of_mem _ hc)) (hne c hc)
        obtain ⟨st', s', f', heq, hcount⟩ :=
          ih hndrs (done ++ [r]) (r.id :: consumed) (succeedStep st r.id) (s + 1) f
            (tr ++ [r]) n (by simpa using Nat.le_of_succ_le_succ hfuel) hdone' hrest' hsub'
        refine ⟨st', s', f', ?_, by simp; omega⟩
        rw [show runWorkerSeq adapter (n + 1) (done ++ r :: rs) consumed st s f tr =
            runWorkerSeq adapter n (done ++ r :: rs) (r.id :: consumed)
              (succeedStep st r.id) (s + 1) f (tr ++ [r]) by
          simp [runWorkerSeq, hpick, hares]]
        rw [happ, heq]
        simp
      | error e =>
        have hfound : st.syncQueue.any (fun q => q.id == r.id) = true := by
          rw [List.any_eq_true]
          exact ⟨r, hsub r (by simp), by simp⟩
        have hsub' : ∀ c ∈ rs, c ∈ (failStep st r.id).syncQueue := fun c hc =>
          mem_failStep_of_ne st r.id c (hsub c (List.mem_cons_of_mem _ hc)) (hne c hc)
        obtain ⟨st', s', f', heq, hcount⟩ :=
          ih hndrs (done ++ [r]) (r.id :: consumed) (failStep st r.id) s (f + 1)
            (tr ++ [r]) n (by simpa using Nat.le_of_succ_le_succ hfuel) hdone' hrest' hsub'
        refine ⟨st', s', f', ?_, by simp; omega⟩
        rw [show runWorkerSeq adapter (n + 1) (done ++ r :: rs) consumed st s f tr =
            runWorkerSeq adapter n (done ++ r :: rs) (r.id :: consumed)
              (failStep st r.id) s (f + 1) (tr ++ [r]) by
          simp [runWorkerSeq, hpick, hares, hfound]]
        rw [happ, heq]
        simp

/-- An item enqueued first (timestamp 1) with priority `low`. -/
def cexLowFirst : SyncQueueItem := exampleItem "c1" 1 .low

/-- A same-owner item enqueued second (timestamp 2) with priority `critical`. -/
def cexCriticalSecond : SyncQueueItem := exampleItem "c2" 2 .critical

/-- An adapter whose calls always succeed. -/
def alwaysOk : SyncQueueItem → Except String Unit := fun _ => .ok ()

/-- `swcrLoop`: the per-item effect of the batched `Promise.allSettled` loop of
`syncWithConflictResolution` (source lines 1318-1337). The batches of
`batchSize` partition the copied item list in order, and each settled result is
inspected per item, so the counters and queue updates are per item and
independent of the batch boundaries. -/
def swcrLoop (adapter : SyncQueueItem → Except String Unit) :
    List SyncQueueItem → List SyncQueueItem → Nat → Nat →
    List SyncQueueItem × Nat × Nat
  | [], queue, s, f => (queue, s, f)
  | it :: rest, queue, s, f =>
    match adapter it with
    | .ok _ => swcrLoop adapter rest (queue.filter (fun q => !(q.id == it.id))) (s + 1) f
    | .error _ => swcrLoop adapter rest queue s (f + 1)

/-- `syncWithConflictResolution` (source lines 1318-1337): drains a copy of
the queue and records a `{successful, failed, conflicts}` summary (the
`conflicts` counter is declared and never incremented). -/
def syncWithConflictResolution (adapter : SyncQueueItem → Except String Unit)
    (queue : List SyncQueueItem) : List SyncQueueItem × List (String × Nat) :=
  let r := swcrLoop adapter queue queue 0 0
  (r.1, [("successful", r.2.1), ("failed", r.2.2), ("conflicts", 0)])

theorem swcrLoop_counts (adapter : SyncQueueItem → Except String Unit) :
    ∀ (items queue : List SyncQueueItem) (s f : Nat),
      (swcrLoop adapter items queue s f).2.1 + (swcrLoop adapter items queue s f).2.2 =
        s + f + items.length := by
  intro items
  induction items with
  | nil => intro queue s f; simp [swcrLoop]
  | cons it rest ih =>
    intro queue s f
    cases hares : adapter it with
    | ok v =>
      have hrec := ih (queue.filter (fun q => !(q.id == it.id))) (s + 1) f
      have hstep : swcrLoop adapter (it :: rest) queue s f =
          swcrLoop adapter rest (queue.filter (fun q => !(q.id == it.id))) (s + 1) f := by
        simp [swcrLoop, hares]
      rw [hstep, List.length_cons]
      omega
    | error e =>
      have hrec := ih queue s (f + 1)
      have hstep : swcrLoop adapter (it :: rest) queue s f =
          swcrLoop adapter rest queue s (f + 1) := by
        simp [swcrLoop, hares]
      rw [hstep, List.length_cons]
      omega

/-- C7 as stated is false in one respect: the summary `processSyncQueue`
records is `{attempted, succeeded, failed}` — it carries no `conflicts` count
(the field is recorded only by `syncWithConflictResolution`). Concretely, a
pass over one item records a summary in which `conflicts` is absent. -/
theorem claim7_counterexample :
    (processSyncQueue alwaysOk [freshItem] []).summary =
        [("attempted", 1), ("succeeded", 1), ("failed", 0)] ∧
    (processSyncQueue alwaysOk [freshItem] []).summary.lookup "conflicts" = none := by
  refine ⟨by decide, by decide⟩

/-- C7 amended: for every queue (with distinct ids) and every adapter
behavior — including adapters that throw on every call — a sync pass completes
and records an `{attempted, succeeded, failed}` summary with
`attempted = succeeded + failed` over the processed items (failures are
contained per item and never propagate to the caller), while the batched
`syncWithConflictResolution` entrypoint records `{successful, failed,
conflicts}` with `successful + failed` equal to the number of processed items
and `conflicts` always 0. -/
theorem claim7_pass_summary_amended (adapter : SyncQueueItem → Except String Unit)
    (queue : List SyncQueueItem) (dlq : List DeadLetterEntry)
    (hnd : (queue.map SyncQueueItem.id).Nodup) :
    (∃ s f, (processSyncQueue adapter queue dlq).summary = lastSyncSummary queue.length s f ∧
      s + f = queue.length) ∧
    (∃ s f, (syncWithConflictResolution adapter queue).2 =
        [("successful", s), ("failed", f), ("conflicts", 0)] ∧
      s + f = queue.length) := by
  constructor
  · have hperm := sortQueueByPriority_perm queue
    have hnds : ((sortQueueByPriority queue).map SyncQueueItem.id).Nodup :=
      ((hperm.map SyncQueueItem.id).nodup_iff).mpr hnd
    have hsub : ∀ c ∈ sortQueueByPriority queue, c ∈ (⟨queue, dlq⟩ : QueueState).syncQueue :=
      fun c hc => hperm.mem_iff.mp hc
    obtain ⟨st', s', f', heq, hcount⟩ :=
      runWorkerSeq_spec adapter (sortQueueByPriority queue) hnds []
        [] ⟨queue, dlq⟩ 0 0 [] (sortQueueByPriority queue).length (le_refl _)
        (by simp) (by simp) hsub
    refine ⟨s', f', ?_, ?_⟩
    · unfold processSyncQueue
      simp only [List.nil_append] at heq
      simp only [heq]
      rw [hperm.length_eq]
    · rw [hperm.length_eq] at hcount
      omega
  · refine ⟨(swcrLoop adapter queue queue 0 0).2.1, (swcrLoop adapter queue queue 0 0).2.2,
      rfl, ?_⟩
    have := swcrLoop_counts adapter queue queue 0 0
    omega

/-- An adapter whose calls always throw. -/
def alwaysThrows : SyncQueueItem → Except String Unit := fun _ => .error "network down"

theorem claim7_pass_summary_amended_witness :
    (∃ s f, (processSyncQueue alwaysThrows [freshItem] []).summary =
        lastSyncSummary 1 s f ∧ s + f = 1) ∧
    (∃ s f, (syncWithConflictResolution alwaysThrows [freshItem]).2 =
        [("successful", s), ("failed", f), ("conflicts", 0)] ∧ s + f = 1) :=
  claim7_pass_summary_amended alwaysThrows [freshItem] [] (by decide)

/-- The status of one of the two workers of `processSyncQueue`
(`concurrency = 2`, source lines 871-939): about to pick, awaiting the adapter
call for an item, or finished (`break` after an empty pick). -/
inductive WStatus
  | idle : WStatus
  | busy : SyncQueueItem → WStatus
  | finished : WStatus
deriving DecidableEq

/-- The scheduling state of one pass: the fixed sorted `itemsToSync`, the
`consumed` id set, the `inflightUsers` set, and the two worker statuses. -/
structure PassState where
  items : List SyncQueueItem
  consumed : List String
  inflight : List String
  w1 : WStatus
  w2 : WStatus
deriving DecidableEq

def getW (s : PassState) (w : Bool) : WStatus :=
  match w with
  | true => s.w1
  | false => s.w2

def setW (s : PassState) (w : Bool) (st : WStatus) : PassState :=
  match w with
  | true => { s with w1 := st }
  | false => { s with w2 := st }

/-- `if (uid) inflightUsers.add(uid)` (source line 898); an owner-less item
records nothing. -/
def inflightAdd (c : SyncQueueItem) (l : List String) : List String :=
  match deriveUserId c with
  | some u => u :: l
  | none => l

/-- `if (uid) inflightUsers.delete(uid)` in the `finally` block
(source line 933); an owner-less item removes nothing. -/
def inflightRemove (c : SyncQueueItem) (l : List String) : List String :=
  match deriveUserId c with
  | some u => l.erase u
  | none => l

/-- A label identifying which worker moved and what it did. -/
inductive StepLabel
  | pickItem : Bool → SyncQueueItem → StepLabel
  | pickEmpty : Bool → StepLabel
  | finish : Bool → SyncQueueItem → StepLabel

/-- Interleaved small-step semantics of the two `runWorker` loops
(source lines 893-939): an idle worker either picks the first eligible item
(marking it consumed and its owner in flight) or breaks when no item is
eligible; a busy worker eventually finishes its awaited adapter call and
releases its owner in the `finally` block. -/
inductive Step : PassState → StepLabel → PassState → Prop
  | pickItem (s : PassState) (w : Bool) (c : SyncQueueItem) :
      getW s w = .idle →
      pickCandidate s.items s.consumed s.inflight = some c →
      Step s (.pickItem w c)
        (setW { s with consumed := c.id :: s.consumed, inflight := inflightAdd c s.inflight }
          w (.busy c))
  | pickEmpty (s : PassState) (w : Bool) :
      getW s w = .idle →
      pickCandidate s.items s.consumed s.inflight = none →
      Step s (.pickEmpty w) (setW s w .finished)
  | finish (s : PassState) (w : Bool) (c : SyncQueueItem) :
      getW s w = .busy c →
      Step s (.finish w c) (setW { s with inflight := inflightRemove c s.inflight } w .idle)

/-- The state at the start of a pass: nothing consumed, nothing in flight,
both workers about to pick. -/
def initState (items : List SyncQueueItem) : PassState :=
  { items := items, consumed := [], inflight := [], w1 := .idle, w2 := .idle }

/-- The states reachable during one pass over `items`. -/
inductive Reached (items : List SyncQueueItem) : PassState → Prop
  | init : Reached items (initState items)
  | step (s : PassState) (l : StepLabel) (s' : PassState) :
      Reached items s → Step s l s' → Reached items s'

theorem pickCandidate_eligible (items : List SyncQueueItem)
    (consumed inflight : List String) (c : SyncQueueItem)
    (h : pickCandidate items consumed inflight = some c) :
    c ∈ items ∧ c.id ∉ consumed ∧ ∀ u, deriveUserId c = some u → u ∉ inflight := by
  have hmem := List.mem_of_find?_eq_some h
  have hp := List.find?_some h
  refine ⟨hmem, ?_, ?_⟩
  · intro hc
    simp [eligibleB, hc] at hp
  · intro u hu hin
    simp [eligibleB, hu, hin] at hp

/-- No two simultaneously busy workers hold items of the same owner. -/
def noOwnerClash (s : PassState) : Prop :=
  ∀ c1 c2 u, s.w1 = .busy c1 → s.w2 = .busy c2 →
    deriveUserId c1 = some u → deriveUserId c2 = some u → False

/-- Every busy worker's owner is recorded in the in-flight set. -/
def busyOwnersTracked (s : PassState) : Prop :=
  (∀ c u, s.w1 = .busy c → deriveUserId c = some u → u ∈ s.inflight) ∧
  (∀ c u, s.w2 = .busy c → deriveUserId c = some u → u ∈ s.inflight)

def schedInv (s : PassState) : Prop := busyOwnersTracked s ∧ noOwnerClash s

theorem schedInv_init (items : List SyncQueueItem) : schedInv (initState items) := by
  refine ⟨⟨?_, ?_⟩, ?_⟩ <;> intro c <;> intros <;> simp_all [initState]

theorem mem_inflightAdd_of_mem (c : SyncQueueItem) (l : List String) (u : String)
    (h : u ∈ l) : u ∈ inflightAdd c l := by
  unfold inflightAdd
  cases deriveUserId c with
  | none => exact h
  | some v => exact List.mem_cons_of_mem v h

theorem schedInv_step (s : PassState) (l : StepLabel) (s' : PassState)
    (hinv : schedInv s) (hs : Step s l s') : schedInv s' := by
  obtain ⟨⟨ht1, ht2⟩, hclash⟩ := hinv
  cases hs with
  | pickItem w c hidle hpick =>
    obtain ⟨-, -, hfree⟩ := pickCandidate_eligible _ _ _ _ hpick
    cases w with
    | true =>
      refine ⟨⟨?_, ?_⟩, ?_⟩
      · intro c' u hb hu
        have hb' : WStatus.busy c = WStatus.busy c' := hb
        cases hb'
        show u ∈ inflightAdd c s.inflight
        simp [inflightAdd, hu]
      · intro c' u hb hu
        have hb' : s.w2 = WStatus.busy c' := hb
        exact mem_inflightAdd_of_mem c _ u (ht2 c' u hb' hu)
      · intro c1 c2 u hb1 hb2 hu1 hu2
        have hb1' : WStatus.busy c = WStatus.busy c1 := hb1
        cases hb1'
        have hb2' : s.w2 = WStatus.busy c2 := hb2
        exact hfree u hu1 (ht2 c2 u hb2' hu2)
    | false =>
      refine ⟨⟨?_, ?_⟩, ?_⟩
      · intro c' u hb hu
        have hb' : s.w1 = WStatus.busy c' := hb
        exact mem_inflightAdd_of_mem c _ u (ht1 c' u hb' hu)
      · intro c' u hb hu
        have hb' : WStatus.busy c = WStatus.busy c' := hb
        cases hb'
        show u ∈ inflightAdd c s.inflight
        simp [inflightAdd, hu]
      · intro c1 c2 u hb1 hb2 hu1 hu2
        have hb2' : WStatus.busy c = WStatus.busy c2 := hb2
        cases hb2'
        have hb1' : s.w1 = WStatus.busy c1 := hb1
        exact hfree u hu2 (ht1 c1 u hb1' hu1)
  | pickEmpty w hidle hpick =>
    cases w with
    | true =>
      refine ⟨⟨?_, ?_⟩, ?_⟩
      · intro c' u hb hu
        exact WStatus.noConfusion (hb : WStatus.finished = WStatus.busy c')
      · intro c' u hb hu
        exact ht2 c' u hb hu
      · intro c1 c2 u hb1 hb2 hu1 hu2
        exact WStatus.noConfusion (hb1 : WStatus.finished = WStatus.busy c1)
    | false =>
      refine ⟨⟨?_, ?_⟩, ?_⟩
      · intro c' u hb hu
        exact ht1 c' u hb hu
      · intro c' u hb hu
        exact WStatus.noConfusion (hb : WStatus.finished = WStatus.busy c')
      · intro c1 c2 u hb1 hb2 hu1 hu2
        exact WStatus.noConfusion (hb2 : WStatus.finished = WStatus.busy c2)
  | finish w c hbusy =>
    cases w with
    | true =>
      have hbusy1 : s.w1 = WStatus.busy c := hbusy
      refine ⟨⟨?_, ?_⟩, ?_⟩
      · intro c' u hb hu
        exact WStatus.noConfusion (hb : WStatus.idle = WStatus.busy c')
      · intro c' u hb hu
        have hb' : s.w2 = WStatus.busy c' := hb
        have hin : u ∈ s.inflight := ht2 c' u hb' hu
        show u ∈ inflightRemove c s.inflight
        unfold inflightRemove
        cases hcu : deriveUserId c with
        | none => exact hin
        | some v =>
          have hne : u ≠ v := by
            intro huv
            subst huv
            exact hclash c c' u hbusy1 hb' hcu hu
          exact (List.mem_erase_of_ne hne).mpr hin
      · intro c1 c2 u hb1 hb2 hu1 hu2
        exact WStatus.noConfusion (hb1 : WStatus.idle = WStatus.busy c1)
    | false =>
      have hbusy2 : s.w2 = WStatus.busy c := hbusy
      refine ⟨⟨?_, ?_⟩, ?_⟩
      · intro c' u hb hu
        have hb' : s.w1 = WStatus.busy c' := hb
        have hin : u ∈ s.inflight := ht1 c' u hb' hu
        show u ∈ inflightRemove c s.inflight
        unfold inflightRemove
        cases hcu : deriveUserId c with
        | none => exact hin
        | some v =>
          have hne : u ≠ v := by
            intro huv
            subst huv
            exact hclash c' c u hb' hbusy2 hu hcu
          exact (List.mem_erase_of_ne hne).mpr hin
      · intro c' u hb hu
        exact WStatus.noConfusion (hb : WStatus.idle = WStatus.busy c')
      · intro c1 c2 u hb1 hb2 hu1 hu2
        exact WStatus.noConfusion (hb2 : WStatus.idle = WStatus.busy c2)

theorem reached_schedInv (items : List SyncQueueItem) (s : PassState)
    (h : Reached items s) : schedInv s := by
  induction h with
  | init => exact schedInv_init items
  | step s l s' hr hs ih => exact schedInv_step s l s' ih hs

def wWeight : WStatus → Nat
  | .idle => 1
  | .busy _ => 2
  | .finished => 0

/-- Number of items of the pass not yet consumed. -/
def unconsumedCount (s : PassState) : Nat :=
  (s.items.filter (fun c => !(decide (c.id ∈ s.consumed)))).length

/-- Termination measure of a pass: each step strictly decreases it. -/
def passMeasure (s : PassState) : Nat :=
  3 * unconsumedCount s + wWeight s.w1 + wWeight s.w2

theorem filter_length_mono {α : Type} (p q : α → Bool)
    (himp : ∀ x, q x = true → p x = true) :
    ∀ l : List α, (l.filter q).length ≤ (l.filter p).length := by
  intro l
  induction l with
  | nil => simp
  | cons a t ih =>
    rw [List.filter_cons, List.filter_cons]
    by_cases hqa : q a = true
    · rw [hqa, himp a hqa]
      simpa using ih
    · have hqa' : q a = false := by simpa using hqa
      rw [hqa']
      by_cases hpa : p a = true
      · rw [hpa]
        simp
        omega
      · have hpa' : p a = false := by simpa using hpa
        rw [hpa']
        exact ih

theorem filter_length_lt {α : Type} (p q : α → Bool)
    (himp : ∀ x, q x = true → p x = true) (l : List α) (x : α) (hx : x ∈ l)
    (hpx : p x = true) (hqx : q x = false) :
    (l.filter q).length < (l.filter p).length := by
  induction l with
  | nil => cases hx
  | cons a t ih =>
    rw [List.filter_cons, List.filter_cons]
    rcases List.mem_cons.mp hx with rfl | hmem
    · rw [hqx, hpx]
      have := filter_length_mono p q himp t
      simp
      omega
    · by_cases hqa : q a = true
      · rw [hqa, himp a hqa]
        simpa using ih hmem
      · have hqa' : q a = false := by simpa using hqa
        rw [hqa']
        by_cases hpa : p a = true
        · rw [hpa]
          have := ih hmem
          simp
          omega
        · have hpa' : p a = false := by simpa using hpa
          rw [hpa']
          exact ih hmem

theorem passMeasure_eq (s : PassState) :
    passMeasure s = 3 * unconsumedCount s + wWeight s.w1 + wWeight s.w2 := rfl

theorem unconsumed_lt_of_pick (s : PassState) (c : SyncQueueItem) (i : List String)
    (hmem : c ∈ s.items) (hfresh : c.id ∉ s.consumed) :
    unconsumedCount { s with consumed := c.id :: s.consumed, inflight := i } <
      unconsumedCount s := by
  show (s.items.filter (fun x => !(decide (x.id ∈ c.id :: s.consumed)))).length <
      (s.items.filter (fun x => !(decide (x.id ∈ s.consumed)))).length
  refine filter_length_lt _ _ ?_ s.items c hmem (by simp [hfresh]) (by simp)
  intro x hx
  simp only [Bool.not_eq_true', decide_eq_false_iff_not] at hx ⊢
  intro hmemc
  exact hx (List.mem_cons_of_mem _ hmemc)

theorem passMeasure_decreases (s : PassState) (l : StepLabel) (s' : PassState)
    (hs : Step s l s') : passMeasure s' < passMeasure s := by
  cases hs with
  | pickItem w c hidle hpick =>
    obtain ⟨hmem, hfresh, -⟩ := pickCandidate_eligible _ _ _ _ hpick
    have hd := unconsumed_lt_of_pick s c (inflightAdd c s.inflight) hmem hfresh
    cases w with
    | true =>
      have hw1 : wWeight s.w1 = 1 := by have h : s.w1 = WStatus.idle := hidle; rw [h]; rfl
      have hL : passMeasure (setW { s with consumed := c.id :: s.consumed, inflight := inflightAdd c s.inflight } true (.busy c)) = 3 * unconsumedCount { s with consumed := c.id :: s.consumed, inflight := inflightAdd c s.inflight } + 2 + wWeight s.w2 := rfl
      rw [hL, passMeasure_eq, hw1]
      omega
    | false =>
      have hw2 : wWeight s.w2 = 1 := by have h : s.w2 = WStatus.idle := hidle; rw [h]; rfl
      have hL : passMeasure (setW { s with consumed := c.id :: s.consumed, inflight := inflightAdd c s.inflight } false (.busy c)) = 3 * unconsumedCount { s with consumed := c.id :: s.consumed, inflight := inflightAdd c s.inflight } + wWeight s.w1 + 2 := rfl
      rw [hL, passMeasure_eq, hw2]
      omega
  | pickEmpty w hidle hpick =>
    cases w with
    | true =>
      have hw1 : wWeight s.w1 = 1 := by have h : s.w1 = WStatus.idle := hidle; rw [h]; rfl
      have hL : passMeasure (setW s true .finished) =
          3 * unconsumedCount s + 0 + wWeight s.w2 := rfl
      rw [hL, passMeasure_eq, hw1]
      omega
    | false =>
      have hw2 : wWeight s.w2 = 1 := by have h : s.w2 = WStatus.idle := hidle; rw [h]; rfl
      have hL : passMeasure (setW s false .finished) =
          3 * unconsumedCount s + wWeight s.w1 + 0 := rfl
      rw [hL, passMeasure_eq, hw2]
      omega
  | finish w c hbusy =>
    cases w with
    | true =>
      have hw1 : wWeight s.w1 = 2 := by have h : s.w1 = WStatus.busy c := hbusy; rw [h]; rfl
      have hL : passMeasure (setW { s with inflight := inflightRemove c s.inflight } true .idle) = 3 * unconsumedCount s + 1 + wWeight s.w2 := rfl
      rw [hL, passMeasure_eq, hw1]
      omega
    | false =>
      have hw2 : wWeight s.w2 = 2 := by have h : s.w2 = WStatus.busy c := hbusy; rw [h]; rfl
      have hL : passMeasure (setW { s with inflight := inflightRemove c s.inflight } false .idle) = 3 * unconsumedCount s + wWeight s.w1 + 1 := rfl
      rw [hL, passMeasure_eq, hw2]
      omega

/-- C3: (i) in every state reachable during a pass, no two concurrently busy
workers hold items of the same owner (the picker skips items whose owner is in
flight); (ii) when every not-yet-consumed item's owner is in flight the picker
returns no candidate instead of blocking; (iii) every scheduler step strictly
decreases a natural-number measure, so a pass always terminates — an empty pick
ends a worker rather than deadlocking it. -/
theorem claim3_owner_exclusion :
    (∀ (items : List SyncQueueItem) (s : PassState), Reached items s → noOwnerClash s) ∧
    (∀ (items : List SyncQueueItem) (consumed inflight : List String),
        (∀ c ∈ items, c.id ∉ consumed → ∃ u, deriveUserId c = some u ∧ u ∈ inflight) →
        pickCandidate items consumed inflight = none) ∧
    (∀ (s : PassState) (l : StepLabel) (s' : PassState), Step s l s' →
        passMeasure s' < passMeasure s) := by
  refine ⟨fun items s h => (reached_schedInv items s h).2, ?_, passMeasure_decreases⟩
  intro items consumed inflight hall
  rw [pickCandidate, List.find?_eq_none]
  intro c hc
  by_cases hmem : c.id ∈ consumed
  · simp [eligibleB, hmem]
  · obtain ⟨u, hu, hin⟩ := hall c hc hmem
    simp [eligibleB, hmem, hu, hin]

theorem claim3_owner_exclusion_witness :
    noOwnerClash (initState [freshItem]) ∧
    pickCandidate [freshItem] [] ["user-1"] = none ∧
    passMeasure (setW (initState []) true .finished) < passMeasure (initState []) := by
  refine ⟨claim3_owner_exclusion.1 [freshItem] _ Reached.init,
    claim3_owner_exclusion.2.1 [freshItem] [] ["user-1"] ?_,
    claim3_owner_exclusion.2.2 (initState []) (.pickEmpty true) _ ?_⟩
  · intro c hc hnc
    have hcf : c = freshItem := by simpa using hc
    subst hcf
    exact ⟨"user-1", by decide, by decide⟩
  · exact Step.pickEmpty (initState []) true rfl rfl

/-- An owner-less item (no `user_id`/`userId` in its payload). -/
def ownerlessA : SyncQueueItem :=
  { id := "a1", type := .CREATE, entity := .achievement, data := {},
    timestamp := 1, retryCount := 0, priority := some .low }

/-- A second, distinct owner-less item. -/
def ownerlessB : SyncQueueItem :=
  { id := "b1", type := .CREATE, entity := .achievement, data := {},
    timestamp := 2, retryCount := 0, priority := some .low }

/-- C10: the per-owner exclusion machinery ignores items whose payload has no
`user_id`/`userId` field: for such items the picker's in-flight membership test
is insensitive to the in-flight set and nothing is ever added to or removed
from it; consequently the pass can reach a state in which both workers are
simultaneously busy with two distinct owner-less items. -/
theorem claim10_ownerless_concurrency :
    (∀ (c : SyncQueueItem) (l : List String), deriveUserId c = none →
        inflightAdd c l = l ∧ inflightRemove c l = l) ∧
    (∀ (c : SyncQueueItem) (consumed inflight inflight' : List String),
        deriveUserId c = none →
        eligibleB c consumed inflight = eligibleB c consumed inflight') ∧
    (∃ s : PassState, Reached [ownerlessA, ownerlessB] s ∧
        s.w1 = .busy ownerlessA ∧ s.w2 = .busy ownerlessB ∧
        deriveUserId ownerlessA = none ∧ deriveUserId ownerlessB = none ∧
        ownerlessA ≠ ownerlessB) := by
  refine ⟨?_, ?_, ?_⟩
  · intro c l h
    exact ⟨by simp [inflightAdd, h], by simp [inflightRemove, h]⟩
  · intro c consumed inflight inflight' h
    simp [eligibleB, h]
  · refine ⟨_, Reached.step _ (.pickItem false ownerlessB) _
      (Reached.step _ (.pickItem true ownerlessA) _ Reached.init
        (Step.pickItem (initState [ownerlessA, ownerlessB]) true ownerlessA rfl (by decide)))
      (Step.pickItem _ false ownerlessB rfl (by decide)), ?_, ?_, by decide, by decide, by decide⟩
    · rfl
    · rfl

theorem claim10_ownerless_concurrency_witness :
    inflightAdd ownerlessA ["user-9"] = ["user-9"] ∧
    inflightRemove ownerlessA ["user-9"] = ["user-9"] ∧
    eligibleB ownerlessA [] ["user-9"] = eligibleB ownerlessA [] [] := by
  have h1 := claim10_ownerless_concurrency.1 ownerlessA ["user-9"] (by decide)
  have h2 := claim10_ownerless_concurrency.2.1 ownerlessA [] ["user-9"] [] (by decide)
  exact ⟨h1.1, h1.2, h2⟩

theorem step_items (s : PassState) (l : StepLabel) (s' : PassState)
    (hs : Step s l s') : s'.items = s.items := by
  cases hs with
  | pickItem w c hidle hpick => cases w <;> rfl
  | pickEmpty w hidle hpick => cases w <;> rfl
  | finish w c hbusy => cases w <;> rfl

theorem reached_items (items : List SyncQueueItem) (s : PassState)
    (h : Reached items s) : s.items = items := by
  induction h with
  | init => rfl
  | step s l s' hr hs ih => rw [step_items s l s' hs, ih]

/-- If the picker returns `b` while a same-owner item `a` stands strictly
earlier in the scanned list (of pairwise-distinct ids), then `a` must already
be consumed: `b`'s eligibility shows the shared owner is not in flight, so the
only way the in-order scan can pass over `a` is the consumed check. -/
theorem pickCandidate_same_owner_consumed (consumed inflight : List String)
    (a b : SyncQueueItem) (u : String)
    (hua : deriveUserId a = some u) (hub : deriveUserId b = some u) :
    ∀ l1 l2 l3 : List SyncQueueItem,
      ((l1 ++ a :: (l2 ++ b :: l3)).map SyncQueueItem.id).Nodup →
      pickCandidate (l1 ++ a :: (l2 ++ b :: l3)) consumed inflight = some b →
      a.id ∈ consumed := by
  intro l1
  induction l1 with
  | nil =>
    intro l2 l3 hnd hpick
    simp only [List.nil_append] at hnd hpick
    have hbelig : eligibleB b consumed inflight = true := by
      simpa using List.find?_some hpick
    have hbnin : u ∉ inflight := by
      intro hin
      simp [eligibleB, hub, hin] at hbelig
    by_cases ha : eligibleB a consumed inflight = true
    · have hfa : List.find? (fun c => eligibleB c consumed inflight)
          (a :: (l2 ++ b :: l3)) = some a :=
        List.find?_cons_of_pos _
          (show (fun c => eligibleB c consumed inflight) a = true from ha)
      unfold pickCandidate at hpick
      rw [hfa] at hpick
      have hab : a = b := by injection hpick
      have hdup : b.id ∈ (l2 ++ b :: l3).map SyncQueueItem.id :=
        List.mem_map_of_mem SyncQueueItem.id (by simp)
      rw [List.map_cons, List.nodup_cons, hab] at hnd
      exact absurd hdup hnd.1
    · have ha' : eligibleB a consumed inflight = false := by simpa using ha
      by_contra hnc
      have helig : eligibleB a consumed inflight = true := by
        simp [eligibleB, hnc, hua, hbnin]
      rw [helig] at ha'
      exact Bool.noConfusion ha'
  | cons x t ih =>
    intro l2 l3 hnd hpick
    simp only [List.cons_append] at hnd hpick
    rw [List.map_cons, List.nodup_cons] at hnd
    by_cases hx : eligibleB x consumed inflight = true
    · have hfx : List.find? (fun c => eligibleB c consumed inflight)
          (x :: (t ++ a :: (l2 ++ b :: l3))) = some x :=
        List.find?_cons_of_pos _
          (show (fun c => eligibleB c consumed inflight) x = true from hx)
      unfold pickCandidate at hpick
      rw [hfx] at hpick
      have hxb : x = b := by injection hpick
      have hdup : b.id ∈ (t ++ a :: (l2 ++ b :: l3)).map SyncQueueItem.id :=
        List.mem_map_of_mem SyncQueueItem.id (by simp)
      rw [hxb] at hnd
      exact absurd hdup hnd.1
    · have hfx : List.find? (fun c => eligibleB c consumed inflight)
          (x :: (t ++ a :: (l2 ++ b :: l3))) =
          List.find? (fun c => eligibleB c consumed inflight)
            (t ++ a :: (l2 ++ b :: l3)) :=
        List.find?_cons_of_neg _
          (show ¬ (fun c => eligibleB c consumed inflight) x = true from by simp [hx])
      unfold pickCandidate at hpick
      rw [hfx] at hpick
      exact ih l2 l3 hnd.2 hpick

/-- Inversion of a pick step: the dispatched item came from `pickCandidate`. -/
theorem step_pick_inv (s : PassState) (l : StepLabel) (s' : PassState)
    (hs : Step s l s') :
    ∀ w b, l = .pickItem w b →
      pickCandidate s.items s.consumed s.inflight = some b := by
  cases hs with
  | pickItem w c hidle hpick =>
    intro w' b' heq
    injection heq with h1 h2
    subst h2
    exact hpick
  | pickEmpty w hidle hpick =>
    intro w' b' heq
    cases heq
  | finish w c hbusy =>
    intro w' b' heq
    cases heq

/-- C5 amended: in the interleaved two-worker scheduler, same-owner items are
dispatched in their priority-sorted order — whenever a pick step dispatches a
same-owner item `b`, every same-owner item `a` that precedes `b` in the sorted
pass list has already been consumed (dispatched earlier); and inside the sorted
list, items of equal stored priority stand in ascending enqueue-timestamp
order. Together: for a fixed owner, dispatch follows enqueue order exactly
within a priority band, while a later-enqueued higher-priority item is
dispatched first. -/
theorem claim5_fifo_amended :
    (∀ (queue : List SyncQueueItem) (s s' : PassState) (w : Bool)
        (l1 l2 l3 : List SyncQueueItem) (a b : SyncQueueItem) (u : String),
        ((sortQueueByPriority queue).map SyncQueueItem.id).Nodup →
        Reached (sortQueueByPriority queue) s →
        Step s (.pickItem w b) s' →
        sortQueueByPriority queue = l1 ++ a :: (l2 ++ b :: l3) →
        deriveUserId a = some u → deriveUserId b = some u →
        a.id ∈ s.consumed) ∧
    (∀ queue : List SyncQueueItem,
        (sortQueueByPriority queue).Pairwise
          (fun x y => x.priority = y.priority → x.timestamp ≤ y.timestamp)) := by
  constructor
  · intro queue s s' w l1 l2 l3 a b u hnd hreach hstep hdecomp hua hub
    have hitems : s.items = sortQueueByPriority queue := reached_items _ _ hreach
    have hpick := step_pick_inv s _ s' hstep w b rfl
    rw [hitems, hdecomp] at hpick
    rw [hdecomp] at hnd
    exact pickCandidate_same_owner_consumed s.consumed s.inflight a b u hua hub
      l1 l2 l3 hnd hpick
  · intro queue
    refine (sortQueueByPriority_pairwise queue).imp ?_
    intro x y hxy hpr
    rcases hxy with h | h
    · rw [hpr] at h
      omega
    · exact h.2

/-- The sorted pass list of the C5 scenario: `critical` first, `low` second. -/
def cexSorted : List SyncQueueItem :=
  sortQueueByPriority [cexLowFirst, cexCriticalSecond]

/-- The state after worker 1 picks the `critical` item. -/
def cexAfterPickB : PassState :=
  setW
    { initState cexSorted with
      consumed := cexCriticalSecond.id :: (initState cexSorted).consumed
      inflight := inflightAdd cexCriticalSecond (initState cexSorted).inflight }
    true (.busy cexCriticalSecond)

/-- The state after worker 1 finishes the `critical` item. -/
def cexAfterFinishB : PassState :=
  setW
    { cexAfterPickB with
      inflight := inflightRemove cexCriticalSecond cexAfterPickB.inflight }
    true .idle

/-- C5 as stated is false: the scheduler dispatches in priority order, not
enqueue order. For two same-owner items — `low` enqueued at time 1, `critical`
at time 2 — the sorted pass list places the `critical` item first, and the
very first pick step of the pass dispatches it while the earlier-enqueued
`low` item is still unconsumed. -/
theorem claim5_counterexample :
    cexLowFirst.timestamp < cexCriticalSecond.timestamp ∧
    deriveUserId cexLowFirst = some "user-1" ∧
    deriveUserId cexCriticalSecond = some "user-1" ∧
    sortQueueByPriority [cexLowFirst, cexCriticalSecond] =
      [cexCriticalSecond, cexLowFirst] ∧
    (∃ s' : PassState,
        Step (initState cexSorted) (.pickItem true cexCriticalSecond) s') ∧
    cexLowFirst.id ∉ (initState cexSorted).consumed := by
  refine ⟨by decide, by decide, by decide, by decide,
    ⟨_, Step.pickItem (initState cexSorted) true cexCriticalSecond rfl (by decide)⟩,
    by decide⟩

theorem claim5_fifo_amended_witness :
    cexCriticalSecond.id ∈ cexAfterFinishB.consumed ∧
    (sortQueueByPriority [cexLowFirst, cexCriticalSecond]).Pairwise
      (fun x y => x.priority = y.priority → x.timestamp ≤ y.timestamp) := by
  have hreach : Reached cexSorted cexAfterFinishB :=
    Reached.step _ _ _
      (Reached.step _ _ _ Reached.init
        (Step.pickItem (initState cexSorted) true cexCriticalSecond rfl (by decide)))
      (Step.finish cexAfterPickB true cexCriticalSecond rfl)
  refine ⟨?_, claim5_fifo_amended.2 [cexLowFirst, cexCriticalSecond]⟩
  exact claim5_fifo_amended.1 [cexLowFirst, cexCriticalSecond] cexAfterFinishB _ true
    [] [] [] cexCriticalSecond cexLowFirst "user-1" (by decide) hreach
    (Step.pickItem cexAfterFinishB true cexLowFirst rfl (by decide))
    (by decide) (by decide) (by decide)

/-- `a || b` on optional strings under JavaScript truthiness. -/
def jsOr (a b : Option String) : Option String :=
  match truthy a with
  | some u => some u
  | none => b

/-- The normalised row the mood-entry adapter saves (source lines 1123-1131):
`??` is nullish coalescing, `||` is truthiness, and a scalar `trigger` is
wrapped into a singleton list. -/
structure MoodEntryRow where
  user_id : String
  mood_score : Int
  energy_level : Int
  anxiety_level : Int
  notes : String
  triggers : List String
  activities : List String
deriving DecidableEq

def normalizeMoodEntry (uid : String) (raw : Payload) : MoodEntryRow :=
  { user_id := uid
    mood_score := ((raw.mood_score).orElse (fun _ => raw.mood)).getD 50
    energy_level := ((raw.energy_level).orElse (fun _ => raw.energy)).getD 5
    anxiety_level := ((raw.anxiety_level).orElse (fun _ => raw.anxiety)).getD 5
    notes := (truthy raw.notes).getD ""
    triggers := (raw.triggers).getD
      (match truthy raw.trigger with
        | some t => [t]
        | none => [])
    activities := (raw.activities).getD [] }

/-- A remote call issued by the mood-entry or voice-checkin adapter. -/
inductive RemoteOp
  | deleteMoodEntryCall (id : String)
  | saveMoodEntryCall (row : MoodEntryRow)
  | deleteVoiceCheckinCall (id : String)
  | saveVoiceCheckinCall (p : Payload)
deriving DecidableEq

/-- The external collaborators of the adapters: `isUUID`
(`@/utils/validators`), the Supabase session user id, and the outcome of each
remote call — all outside `src/`, passed as parameters. -/
structure RemoteEnv where
  isUUID : String → Bool
  currentUid : Option String
  deleteMoodEntryResult : String → Except String Unit
  saveMoodEntryResult : MoodEntryRow → Except String Unit
  deleteVoiceCheckinResult : String → Except String Unit
  saveVoiceCheckinResult : Payload → Except String Unit

/-- `resolveValidUserId` (source lines 755-763): a truthy UUID candidate wins,
otherwise the current session user id if it is a UUID, otherwise a thrown
error. -/
def resolveValidUserId (isUUID : String → Bool) (currentUid : Option String)
    (candidate : Option String) : Except String String :=
  match truthy candidate with
  | some c =>
    if isUUID c then .ok c
    else
      match truthy currentUid with
      | some u => if isUUID u then .ok u else .error "No valid user id available"
      | none => .error "No valid user id available"
  | none =>
    match truthy currentUid with
    | some u => if isUUID u then .ok u else .error "No valid user id available"
    | none => .error "No valid user id available"

/-- `syncMoodEntry` (source lines 1090-1134), returning the remote calls made.
A `DELETE` with a truthy payload id calls `deleteMoodEntry` and propagates its
failure; a `DELETE` without one only logs "DELETE skipped: missing mood entry
id" and returns normally, issuing no remote call; `CREATE`/`UPDATE` resolve an
owner id and save the normalised row. -/
def syncMoodEntry (env : RemoteEnv) (item : SyncQueueItem) :
    Except String (List RemoteOp) :=
  match item.type with
  | .DELETE =>
    match truthy item.data.id with
    | some rid =>
      match env.deleteMoodEntryResult rid with
      | .ok _ => .ok [RemoteOp.deleteMoodEntryCall rid]
      | .error e => .error e
    | none => .ok []
  | _ =>
    match resolveValidUserId env.isUUID env.currentUid
        (jsOr item.data.user_id item.data.userId) with
    | .ok uid =>
      match env.saveMoodEntryResult (normalizeMoodEntry uid item.data) with
      | .ok _ => .ok [RemoteOp.saveMoodEntryCall (normalizeMoodEntry uid item.data)]
      | .error e => .error e
    | .error e => .error e

/-- `syncVoiceCheckin` (source lines 1137-1171): same shape as the mood-entry
adapter; a `DELETE` whose payload lacks a truthy id logs "DELETE skipped" and
returns normally without any remote call. -/
def syncVoiceCheckin (env : RemoteEnv) (item : SyncQueueItem) :
    Except String (List RemoteOp) :=
  match item.type with
  | .DELETE =>
    match truthy item.data.id with
    | some rid =>
      match env.deleteVoiceCheckinResult rid with
      | .ok _ => .ok [RemoteOp.deleteVoiceCheckinCall rid]
      | .error e => .error e
    | none => .ok []
  | _ =>
    match resolveValidUserId env.isUUID env.currentUid
        (jsOr item.data.user_id item.data.userId) with
    | .ok uid =>
      match env.saveVoiceCheckinResult { item.data with user_id := some uid } with
      | .ok _ => .ok [RemoteOp.saveVoiceCheckinCall { item.data with user_id := some uid }]
      | .error e => .error e
    | .error e => .error e

/-- The mood-entry adapter as seen by the worker loop (only success or thrown
error is observable there). -/
def moodAdapter (env : RemoteEnv) : SyncQueueItem → Except String Unit :=
  fun it => (syncMoodEntry env it).map (fun _ => ())

/-- The voice-checkin adapter as seen by the worker loop. -/
def voiceAdapter (env : RemoteEnv) : SyncQueueItem → Except String Unit :=
  fun it => (syncVoiceCheckin env it).map (fun _ => ())

/-- C9: a `DELETE` item whose payload carries no (truthy) id is never
dispatched to the remote delete call: the mood-entry and voice-checkin
adapters return normally with an empty remote-call list, whatever the remote
behavior; processing such an item in a pass therefore counts it as succeeded,
removes it from the live queue, and leaves the dead-letter store untouched. -/
theorem claim9_delete_without_id (env : RemoteEnv) (item : SyncQueueItem)
    (dlq : List DeadLetterEntry) (htype : item.type = .DELETE)
    (hid : truthy item.data.id = none) :
    syncMoodEntry env item = .ok [] ∧
    syncVoiceCheckin env item = .ok [] ∧
    (processSyncQueue (moodAdapter env) [item] dlq).state = ⟨[], dlq⟩ ∧
    (processSyncQueue (voiceAdapter env) [item] dlq).state = ⟨[], dlq⟩ ∧
    (processSyncQueue (moodAdapter env) [item] dlq).summary = lastSyncSummary 1 1 0 := by
  have hm : syncMoodEntry env item = .ok [] := by
    unfold syncMoodEntry
    rw [htype]
    simp only [hid]
  have hv : syncVoiceCheckin env item = .ok [] := by
    unfold syncVoiceCheckin
    rw [htype]
    simp only [hid]
  have hma : moodAdapter env item = .ok () := by
    simp [moodAdapter, hm, Except.map]
  have hva : voiceAdapter env item = .ok () := by
    simp [voiceAdapter, hv, Except.map]
  have hsort : sortQueueByPriority [item] = [item] := rfl
  have hpick : pickCandidate [item] [] [] = some item := by
    have helig := eligibleB_true_of_fresh item [] (by simp)
    simp [pickCandidate, List.find?_cons_of_pos, helig]
  have hsucceed : succeedStep ⟨[item], dlq⟩ item.id = ⟨[], dlq⟩ := by
    simp [succeedStep]
  have hrunM : runWorkerSeq (moodAdapter env) 1 [item] [] ⟨[item], dlq⟩ 0 0 [] =
      (⟨[], dlq⟩, 1, 0, [item]) := by
    simp [runWorkerSeq, hpick, hma, hsucceed]
  have hrunV : runWorkerSeq (voiceAdapter env) 1 [item] [] ⟨[item], dlq⟩ 0 0 [] =
      (⟨[], dlq⟩, 1, 0, [item]) := by
    simp [runWorkerSeq, hpick, hva, hsucceed]
  refine ⟨hm, hv, ?_, ?_, ?_⟩
  · unfold processSyncQueue
    rw [hsort]
    simp [hrunM]
  · unfold processSyncQueue
    rw [hsort]
    simp [hrunV]
  · unfold processSyncQueue
    rw [hsort]
    simp [hrunM, lastSyncSummary]

/-- A remote environment whose delete endpoints always fail, demonstrating
that an id-less tombstone never reaches them. -/
def demoEnv : RemoteEnv :=
  { isUUID := fun _ => true
    currentUid := some "user-1"
    deleteMoodEntryResult := fun _ => .error "remote delete rejected"
    saveMoodEntryResult := fun _ => .ok ()
    deleteVoiceCheckinResult := fun _ => .error "remote delete rejected"
    saveVoiceCheckinResult := fun _ => .ok () }

/-- A `DELETE` tombstone whose payload has an owner but no id. -/
def tombstoneNoId : SyncQueueItem :=
  { id := "tomb-1", type := .DELETE, entity := .mood_entry,
    data := { user_id := some "user-1" }, timestamp := 9, retryCount := 0,
    priority := some .high }

theorem claim9_delete_without_id_witness :
    syncMoodEntry demoEnv tombstoneNoId = .ok [] ∧
    (processSyncQueue (moodAdapter demoEnv) [tombstoneNoId] []).state = ⟨[], []⟩ ∧
    (processSyncQueue (moodAdapter demoEnv) [tombstoneNoId] []).summary =
      lastSyncSummary 1 1 0 := by
  have h := claim9_delete_without_id demoEnv tombstoneNoId [] rfl rfl
  exact ⟨h.1, h.2.2.1, h.2.2.2.2⟩

end MoodSync
